import Mathlib

/-!
Verification of the real-time voice pipeline of the `crazycoderman/ai` web
application, as a shallow embedding in Lean 4.

The embedded components are:
* the outbound PCM encoder `floatTo16BitPCM` and the inbound Int16 decode of
  the live duplex session (src/unnamed/part_000);
* the gapless playback scheduler of the live session (src/unnamed/part_000,
  `connect` onmessage handler);
* the VAD loop `checkSilence` of the voice interface
  (src/components/VoiceInterface.tsx);
* the turn orchestrator of the voice interface (`handleStopAndProcess`,
  `processConversationTurn`, `playAudioResponse`);
* the audio recorder hook (src/hooks/useAudioRecorder.ts);
* the base64 transport codec of the live session (`arrayBufferToBase64`,
  `b64ToUint8Array`);
* the request preparation of the completion services
  (src/services/groqService.ts).

JavaScript numbers that hold audio samples or clock values are modeled as
rationals; JavaScript strings are modeled as `List Char`; machine conversion
to 16-bit integers is modeled with explicit truncation and wrapping.
-/

/- ===================================================================
   PCM encode/decode of the live duplex session (src/unnamed/part_000)
   =================================================================== -/

/-- Truncation toward zero of a rational number.  JavaScript's `ToInt16`
conversion (applied when a Number is stored into an `Int16Array`) first
truncates the fractional part toward zero.  Since `Rat` is stored in lowest
terms with a positive denominator, truncation toward zero is `Int.tdiv` of
numerator by denominator. -/
def ratTrunc (x : ℚ) : ℤ :=
  x.num.tdiv x.den

/-- JavaScript `ToInt16`: truncate toward zero, then wrap into
`[-32768, 32767]` modulo `2 ^ 16`. -/
def toInt16 (x : ℚ) : ℤ :=
  (ratTrunc x + 32768) % 65536 - 32768

/-- Source: `floatTo16BitPCM` (src/unnamed/part_000, lines 158-165), per
sample:
`const s = Math.max(-1, Math.min(1, input[i]));`
`output[i] = s < 0 ? s * 0x8000 : s * 0x7FFF;`
Storing into the `Int16Array` applies the `ToInt16` conversion. -/
def floatTo16BitPCMSample (input : ℚ) : ℤ :=
  let s := max (-1) (min 1 input)
  if s < 0 then toInt16 (s * 0x8000) else toInt16 (s * 0x7FFF)

/-- Source: `floatTo16BitPCM` applied to a whole `Float32Array`. -/
def floatTo16BitPCM (input : List ℚ) : List ℤ :=
  input.map floatTo16BitPCMSample

/-- Source: the inbound Int16-to-Float32 decode of the live session
(src/unnamed/part_000, lines 317-323): `float32[i] = dataInt16[i] / 32768.0`. -/
def int16ToFloat (v : ℤ) : ℚ :=
  (v : ℚ) / 32768

/- ===================================================================
   Gapless playback scheduler of the live session
   (src/unnamed/part_000, `connect` onmessage, lines 329-346)
   =================================================================== -/

/-- Playback queue scalar state: `nextStartTimeRef`. -/
structure SchedState where
  nextStartTime : ℚ
  deriving Repr, DecidableEq

/-- Source (src/unnamed/part_000, lines 333-340):
`const currentTime = ctx.currentTime;`
`if (nextStartTimeRef.current < currentTime) nextStartTimeRef.current = currentTime;`
`source.start(nextStartTimeRef.current);`
`nextStartTimeRef.current += buffer.duration;`
Returns the scheduled start of this buffer and the updated state. -/
def scheduleBuffer (s : SchedState) (currentTime dur : ℚ) : ℚ × SchedState :=
  let nst := if s.nextStartTime < currentTime then currentTime else s.nextStartTime
  (nst, ⟨nst + dur⟩)

/-- Scheduling a whole sequence of inbound buffers, each given by its arrival
clock reading and its duration; returns the list of scheduled starts. -/
def scheduleRun (s : SchedState) : List (ℚ × ℚ) → List ℚ
  | [] => []
  | (ct, d) :: rest =>
    let r := scheduleBuffer s ct d
    r.1 :: scheduleRun r.2 rest

/- ===================================================================
   Voice-activity detection loop (src/components/VoiceInterface.tsx,
   `checkSilence` inside `startVADLoop`, lines 85-118)
   =================================================================== -/

/-- `const SILENCE_THRESHOLD = 15;` (volume threshold on a 0-255 scale).
The per-frame mean magnitude is a rational (`sum / bufferLength`). -/
def SILENCE_THRESHOLD : ℚ := 15

/-- `const SILENCE_DURATION = 1500;` (ms of silence to trigger send). -/
def SILENCE_DURATION : ℕ := 1500

/-- The mutable state read and written by the VAD loop: the logic refs
(`hasSpokenRef`, `silenceStartTimeRef`, `lastSpeechTimeRef`,
`isProcessingRef`) together with the pieces of component state the loop's
guard reads (`status === 'listening'`, `isHandsFree`).  The source uses the
sentinel value `0` for "no silence start latched", as does this model. -/
structure VadState where
  hasSpoken : Bool
  silenceStart : ℕ
  lastSpeech : ℕ
  processing : Bool
  listening : Bool
  handsFree : Bool
  deriving Repr, DecidableEq

/-- The VAD state right after `handleStartListening` resets the refs and sets
`status = 'listening'` (lines 198-204), in hands-free mode. -/
def vadInit : VadState :=
  { hasSpoken := false, silenceStart := 0, lastSpeech := 0,
    processing := false, listening := true, handsFree := true }

/-- The timeout check of `checkSilence` once `silenceStartedAt` is latched:
`const silenceDuration = currentTime - silenceStartTimeRef.current;`
`if (silenceDuration > SILENCE_DURATION) handleStopAndProcess();`. -/
def vadSilenceStep (s : VadState) (now : ℕ) : VadState × Bool :=
  if SILENCE_DURATION < now - s.silenceStart then
    ({ s with processing := true, listening := false }, true)
  else (s, false)

/-- Source: one invocation of `checkSilence` (lines 85-118) on a frame with
timestamp `now` (`Date.now()`) and mean magnitude `avgVolume`.  The silence
branch first latches `silenceStartTimeRef` on the first silent frame and
then checks the elapsed duration (`vadSilenceStep` above, which also models
the synchronous prefix of the `handleStopAndProcess` it calls on timeout:
the re-check of the guard, `isProcessingRef.current = true`, and
`setStatus('processing')`).  The returned boolean is `true` exactly when the
"turn complete" event was raised. -/
def vadStep (s : VadState) (now : ℕ) (avgVolume : ℚ) : VadState × Bool :=
  if !s.handsFree || !s.listening || s.processing then (s, false)
  else if SILENCE_THRESHOLD < avgVolume then
    ({ s with lastSpeech := now, silenceStart := 0, hasSpoken := true }, false)
  else if s.hasSpoken then
    vadSilenceStep
      { s with silenceStart := if s.silenceStart = 0 then now else s.silenceStart }
      now
  else (s, false)

/-- The VAD loop over a sequence of frames `(timestamp, mean magnitude)`;
returns the final state and the number of "turn complete" events raised. -/
def vadRun (s : VadState) : List (ℕ × ℚ) → VadState × ℕ
  | [] => (s, 0)
  | (t, v) :: rest =>
    let r := vadStep s t v
    let r2 := vadRun r.1 rest
    (r2.1, (if r.2 then 1 else 0) + r2.2)

/- ===================================================================
   String helpers: JavaScript `trim` and the thought-tag stripping regex
   `aiResponseText.replace(/<think>[\s\S]*?<\/think>/g, '').trim()`
   (src/components/VoiceInterface.tsx, line 272)
   =================================================================== -/

/-- JavaScript `String.prototype.trim`, on strings as `List Char`. -/
def trimL (l : List Char) : List Char :=
  ((l.dropWhile Char.isWhitespace).reverse.dropWhile Char.isWhitespace).reverse

/-- `p` is a leading segment of `l`. -/
def startsWithL : List Char → List Char → Bool
  | [], _ => true
  | _ :: _, [] => false
  | a :: ps, b :: ls => a = b && startsWithL ps ls

/-- The opening tag `<think>` of the thought-markup regex. -/
def thinkOpen : List Char := "<think>".toList

/-- The closing tag `</think>` of the thought-markup regex. -/
def thinkClose : List Char := "</think>".toList

/-- Scan for the first occurrence of `</think>`; on success return the
remainder of the string after it (the non-greedy `[\s\S]*?<\/think>` part of
the regex).  `none` when no closing tag occurs. -/
def afterClose : List Char → Option (List Char)
  | [] => none
  | c :: rest =>
    if startsWithL thinkClose (c :: rest) then some ((c :: rest).drop 8)
    else afterClose rest

/-- One fuel-indexed step of the global regex replace
`/<think>[\s\S]*?<\/think>/g` with the empty replacement: scan left to right;
at each position, if `<think>` starts here and a `</think>` occurs later, the
whole (shortest) match is removed and scanning resumes after it, otherwise
the character is kept.  The fuel only serves structural recursion; it never
runs out when it starts at the string length. -/
def stripThinkGo : ℕ → List Char → List Char
  | 0, l => l
  | _ + 1, [] => []
  | f + 1, c :: rest =>
    if startsWithL thinkOpen (c :: rest) then
      match afterClose (rest.drop 6) with
      | some r => stripThinkGo f r
      | none => c :: stripThinkGo f rest
    else c :: stripThinkGo f rest

/-- Source: `aiResponseText.replace(/<think>[\s\S]*?<\/think>/g, '')`
(line 272, before the final `.trim()`). -/
def stripThink (l : List Char) : List Char :=
  stripThinkGo l.length l

/- ===================================================================
   Turn orchestrator (src/components/VoiceInterface.tsx)
   =================================================================== -/

/-- The four values of the `status` state (line 19). -/
inductive VStatus where
  | idle
  | listening
  | processing
  | speaking
  deriving Repr, DecidableEq

/-- Message roles (src/unnamed/part_002, `Message.role`). -/
inductive VRole where
  | user
  | assistant
  | system
  deriving Repr, DecidableEq

/-- An entry of the `messages` state (src/unnamed/part_002, `Message`). -/
structure VMessage where
  role : VRole
  content : List Char
  timestamp : ℕ
  deriving Repr, DecidableEq

/-- The orchestrator state of the voice interface: the `status` and
`messages` React state, the `isProcessingRef` lock, the transcript display,
the mode toggle, whether `settings.apiKey` is non-empty, and the VAD logic
refs that `handleStartListening` resets. -/
structure VoiceState where
  status : VStatus
  lock : Bool
  messages : List VMessage
  currentTranscript : List Char
  handsFree : Bool
  apiKeySet : Bool
  hasSpoken : Bool
  silenceStart : ℕ
  lastSpeech : ℕ
  deriving Repr, DecidableEq

/-- Counts of provider calls made during one conversation turn, the text
passed to speech synthesis (if any), and whether a `catch` handler ran. -/
structure TurnTrace where
  transcribeCalls : ℕ
  completionCalls : ℕ
  synthCalls : ℕ
  synthInput : Option (List Char)
  failed : Bool
  deriving Repr, DecidableEq

/-- The trace of a turn that made no provider calls. -/
def emptyTrace : TurnTrace :=
  { transcribeCalls := 0, completionCalls := 0, synthCalls := 0,
    synthInput := none, failed := false }

/-- Outcome of one awaited external call: a result, or a thrown failure. -/
inductive CallResult (α : Type) where
  | ok (val : α)
  | error
  deriving Repr, DecidableEq

/-- Results of the awaited external operations of one turn: whether
`stopRecording()` produced a clip, and the outcomes of transcription,
completion, synthesis, and audio decode/playback start.  `CallResult.error`
models a thrown failure. -/
structure TurnOracles where
  clipProduced : Bool
  transcribeR : CallResult (List Char)
  completeR : CallResult (List Char)
  synthR : CallResult Unit
  playR : CallResult Unit
  deriving Repr, DecidableEq

/-- Source: `handleStartListening` (lines 181-205) on its success path:
the API-key guard, then (after acquiring the stream and starting the
recorder) the VAD-state reset `hasSpokenRef=false`, `silenceStartTimeRef=0`,
`lastSpeechTimeRef=0`, `isProcessingRef=false`, and `setStatus('listening')`. -/
def handleStartListening (s : VoiceState) : VoiceState :=
  if !s.apiKeySet then s
  else
    { s with hasSpoken := false, silenceStart := 0, lastSpeech := 0,
             lock := false, status := VStatus.listening }

/-- Source: the synchronous prefix of `handleStopAndProcess` after its guard
(lines 210-211): `isProcessingRef.current = true; setStatus('processing');`. -/
def lockEnter (s : VoiceState) : VoiceState :=
  { s with lock := true, status := VStatus.processing }

/-- Source: the `catch` of `processConversationTurn` (lines 287-291):
`console.error(...)`, `setStatus('idle')`, `isProcessingRef.current = false`.
Nothing is appended to `messages`; the error is only logged to the console. -/
def catchHandler (s : VoiceState) : VoiceState :=
  { s with status := VStatus.idle, lock := false }

/-- Source: `playAudioResponse` (lines 294-326): `setStatus('speaking')`,
then decode and start; its own `catch` (lines 321-325) sets `status='idle'`
and clears the lock (again only `console.error`, no message appended). -/
def playAudioResponse (s : VoiceState) (playR : CallResult Unit) : VoiceState :=
  match playR with
  | CallResult.error => { s with status := VStatus.idle, lock := false }
  | CallResult.ok _ => { s with status := VStatus.speaking }

/-- Source: the `source.onended` playback-completion handler
(lines 311-319): auto-restart listening in hands-free mode, else return to
`idle` and clear the lock. -/
def sourceEnded (s : VoiceState) : VoiceState :=
  if s.handsFree then handleStartListening s
  else { s with status := VStatus.idle, lock := false }

/-- Source: `processConversationTurn` (lines 223-292) with timestamps taken
as `now`.  Steps: transcribe; on empty/whitespace-only transcript return to
`listening` (hands-free) or `idle` (manual); otherwise append the user turn,
request the completion, append the assistant turn, strip thought tags and
trim, and either synthesize-and-play or (on empty residual text) skip
synthesis.  Any thrown failure lands in the `catch` handler.

The reasoning-trigger rewrite (lines 243-250) and the mapped history passed
to `getChatCompletion` (lines 258-263) only shape the completion request
payload; they touch no component state and no control flow, so the payload
itself is not modeled here (the service-side handling of the request is
modeled separately for the groqService functions). -/
def processConversationTurn (s : VoiceState) (o : TurnOracles) (now : ℕ) :
    VoiceState × TurnTrace :=
  match o.transcribeR with
  | CallResult.error =>
    (catchHandler s,
     { transcribeCalls := 1, completionCalls := 0, synthCalls := 0,
       synthInput := none, failed := true })
  | CallResult.ok transcript =>
    if trimL transcript = [] then
      -- lines 228-238: empty transcript, no completion call, no error shown
      (if s.handsFree then handleStartListening s
       else { s with status := VStatus.idle, lock := false },
       { transcribeCalls := 1, completionCalls := 0, synthCalls := 0,
         synthInput := none, failed := false })
    else
      let s1 := { s with currentTranscript := transcript }
      let s2 := { s1 with messages :=
        s1.messages ++ [⟨VRole.user, transcript, now⟩] }
      match o.completeR with
      | CallResult.error =>
        (catchHandler s2,
         { transcribeCalls := 1, completionCalls := 1, synthCalls := 0,
           synthInput := none, failed := true })
      | CallResult.ok aiResponseText =>
        let s3 := { s2 with messages :=
          s2.messages ++ [⟨VRole.assistant, aiResponseText, now⟩] }
        let speechText := trimL (stripThink aiResponseText)
        if speechText ≠ [] then
          match o.synthR with
          | CallResult.error =>
            (catchHandler s3,
             { transcribeCalls := 1, completionCalls := 1, synthCalls := 1,
               synthInput := some speechText, failed := true })
          | CallResult.ok _ =>
            (playAudioResponse s3 o.playR,
             { transcribeCalls := 1, completionCalls := 1, synthCalls := 1,
               synthInput := some speechText,
               failed := match o.playR with
                         | CallResult.error => true
                         | CallResult.ok _ => false })
        else
          -- lines 278-285: thought-only response; note the manual branch
          -- only sets status and does not clear the lock
          (if s3.handsFree then handleStartListening s3
           else { s3 with status := VStatus.idle },
           { transcribeCalls := 1, completionCalls := 1, synthCalls := 0,
             synthInput := none, failed := false })

/-- Source: `handleStopAndProcess` (lines 207-221): the reentrancy guard
`if (status !== 'listening' || isProcessingRef.current) return;`, the lock
entry, then `stopRecording()`; with a clip the turn is processed, without
one the state returns to `idle` and the lock is cleared. -/
def handleStopAndProcess (s : VoiceState) (o : TurnOracles) (now : ℕ) :
    VoiceState × TurnTrace :=
  if s.status ≠ VStatus.listening ∨ s.lock then (s, emptyTrace)
  else
    let s1 := lockEnter s
    if o.clipProduced then processConversationTurn s1 o now
    else ({ s1 with status := VStatus.idle, lock := false }, emptyTrace)

/- ===================================================================
   Audio recorder hook (src/hooks/useAudioRecorder.ts)
   =================================================================== -/

/-- The lifecycle state of the `MediaRecorder` object held in
`mediaRecorderRef`: `recording` after `start()`, `inactive` once stopped. -/
inductive RecPhase where
  | recording
  | inactive
  deriving Repr, DecidableEq

/-- State of the recorder hook: the `mediaRecorderRef` (with `none` for the
initial `null`), the `isRecording` React state, and how many times the
tracks of the currently-held stream have been stopped (the microphone
releases performed on that stream). -/
structure RecorderState where
  recorder : Option RecPhase
  isRecording : Bool
  trackStopCount : ℕ
  deriving Repr, DecidableEq

/-- The hook's initial state: `mediaRecorderRef.current = null`. -/
def recInit : RecorderState :=
  { recorder := none, isRecording := false, trackStopCount := 0 }

/-- How the promise returned by `stopRecording()` settles: with `null`, with
the encoded clip, or never (the `onstop` handler that would resolve it is
never invoked). -/
inductive StopOutcome where
  | nullClip
  | clip
  | neverResolves
  deriving Repr, DecidableEq

/-- Source: `startRecording` (lines 9-33): on granted permission a fresh
stream is acquired and a new `MediaRecorder` is created, stored in the ref
and started; on denial the error is logged and the state is unchanged. -/
def startRecording (s : RecorderState) (permission : Bool) : RecorderState :=
  if permission then
    { recorder := some RecPhase.recording, isRecording := true,
      trackStopCount := 0 }
  else s

/-- Source: `stopRecording` (lines 35-61).  With a `null` ref the promise
resolves `null`.  With an active recorder, `mediaRecorder.stop()` fires
`onstop`, which builds the clip, sets `isRecording=false`, stops every track
of the recorder's stream (one release), and resolves the file; the ref is
left pointing at the now-inactive recorder.  With an inactive recorder,
`stop()` aborts without firing `onstop` (MediaStream Recording spec), so no
track is stopped again and the promise never settles. -/
def stopRecording (s : RecorderState) : RecorderState × StopOutcome :=
  match s.recorder with
  | none => (s, StopOutcome.nullClip)
  | some RecPhase.recording =>
    ({ recorder := some RecPhase.inactive, isRecording := false,
       trackStopCount := s.trackStopCount + 1 }, StopOutcome.clip)
  | some RecPhase.inactive => (s, StopOutcome.neverResolves)

/- ===================================================================
   Base64 transport codec of the live session
   (src/unnamed/part_000, lines 137-155)
   =================================================================== -/

/-- The base64 alphabet used by `btoa`/`atob`. -/
def b64alphabet : List Char :=
  "ABCDEFGHIJKLMNOPQRSTUVWXYZabcdefghijklmnopqrstuvwxyz0123456789+/".toList

/-- The base64 digit for a sextet value. -/
def b64char (n : ℕ) : Char :=
  b64alphabet.getD n 'A'

/-- The sextet value of a base64 digit. -/
def b64val (c : Char) : ℕ :=
  (b64alphabet.findIdx? (· = c)).getD 0

/-- The `btoa` platform primitive on a binary string given by its byte
values: standard base64 with `=` padding, processing three bytes into four
digits (`a/4`, `a%4*16 + b/16`, `b%16*4 + c/64`, `c%64`). -/
def btoaL : List ℕ → List Char
  | [] => []
  | [a] => [b64char (a / 4), b64char (a % 4 * 16), '=', '=']
  | [a, b] =>
    [b64char (a / 4), b64char (a % 4 * 16 + b / 16), b64char (b % 16 * 4), '=']
  | a :: b :: c :: rest =>
    b64char (a / 4) :: b64char (a % 4 * 16 + b / 16) ::
      b64char (b % 16 * 4 + c / 64) :: b64char (c % 64) :: btoaL rest

/-- The `atob` platform primitive on a well-padded base64 string, returning
the byte values of the binary string: four digits yield up to three bytes
(`s1*4 + s2/16`, `s2%16*16 + s3/4`, `s3%4*64 + s4`), with `=` padding
marking a short final group. -/
def atobL : List Char → List ℕ
  | c1 :: c2 :: c3 :: c4 :: rest =>
    if c3 = '=' then [b64val c1 * 4 + b64val c2 / 16]
    else if c4 = '=' then
      [b64val c1 * 4 + b64val c2 / 16, b64val c2 % 16 * 16 + b64val c3 / 4]
    else
      (b64val c1 * 4 + b64val c2 / 16) :: (b64val c2 % 16 * 16 + b64val c3 / 4) ::
        (b64val c3 % 4 * 64 + b64val c4) :: atobL rest
  | _ => []

/-- Source: `arrayBufferToBase64` (lines 147-155): each byte becomes one
character of a binary string via `String.fromCharCode`, then `btoa` encodes
that string. -/
def arrayBufferToBase64 (bytes : List ℕ) : List Char :=
  btoaL ((bytes.map Char.ofNat).map Char.toNat)

/-- Source: `b64ToUint8Array` (lines 137-145): `atob` decodes to a binary
string, and `charCodeAt` of each character fills the byte array. -/
def b64ToUint8Array (s : List Char) : List ℕ :=
  ((atobL s).map Char.ofNat).map Char.toNat

/- ===================================================================
   Completion request preparation (src/services/groqService.ts)
   =================================================================== -/

/-- The two selectable model identifiers (src/unnamed/part_002,
`AIModelId`). -/
inductive AIModelId where
  | llama4scout
  | qwen3
  deriving Repr, DecidableEq

/-- A `MODEL_CONFIGS` entry (src/unnamed/part_002): request parameters for
one model. -/
structure CfgObj where
  temperature : ℚ
  maxCompletionTokens : ℕ
  topP : ℚ
  reasoningEffort : Option (List Char)
  deriving Repr, DecidableEq

/-- Source: the `MODEL_CONFIGS` constant (src/unnamed/part_002,
lines 30-43). -/
def MODEL_CONFIGS : AIModelId → CfgObj
  | AIModelId.llama4scout =>
    { temperature := 1, maxCompletionTokens := 1024, topP := 1,
      reasoningEffort := none }
  | AIModelId.qwen3 =>
    { temperature := 6 / 10, maxCompletionTokens := 4096, topP := 95 / 100,
      reasoningEffort := some "default".toList }

/-- A chat message object as the services see it (`{role, content}`). -/
structure GMessage where
  role : VRole
  content : List Char
  deriving Repr, DecidableEq

/-- Pointwise update of a store. -/
def upd {α : Type} (f : ℕ → α) (i : ℕ) (v : α) : ℕ → α :=
  fun j => if j = i then v else f j

/-- A small JavaScript heap for the aliasing-sensitive part of the services:
a store of array objects (lists of message-object ids), a store of message
objects, the shared `MODEL_CONFIGS` binding, and a fresh-id counter.  Spread
syntax allocates a new object; element assignment and `unshift` write to the
array object they are applied to. -/
structure JSHeap where
  arrs : ℕ → List ℕ
  objs : ℕ → GMessage
  cfgs : AIModelId → CfgObj
  next : ℕ

/-- The reasoning-mode system instruction
(src/services/groqService.ts, lines 34 and 82). -/
def systemInstruction : List Char :=
  ("You are in reasoning mode. Please output your thought process enclosed " ++
   "in <think> and </think> tags before providing the final answer.").toList

/-- Source: the argument preparation of `getChatCompletion` (lines 74-101):
`const requestConfig = {...baseConfig};` copies the shared config (a read);
`let messagesToSend = [...messages];` allocates a fresh array sharing the
caller's message objects; when the model is Qwen and reasoning is requested,
either the element at the first system index is replaced by a freshly
allocated object carrying the appended instruction, or a fresh system
message is unshifted.  Returns the heap and the id of `messagesToSend`. -/
def getChatCompletionPrep (h : JSHeap) (messagesArr : ℕ) (modelId : AIModelId)
    (isReasoning : Bool) : JSHeap × ℕ :=
  let msgs := h.arrs messagesArr
  let localId := h.next
  let h1 : JSHeap :=
    { h with arrs := upd h.arrs localId msgs, next := h.next + 1 }
  if modelId = AIModelId.qwen3 ∧ isReasoning then
    match msgs.findIdx? (fun oid => decide ((h1.objs oid).role = VRole.system)) with
    | some i =>
      let oldId := msgs.getD i 0
      let newObjId := h1.next
      let newObj : GMessage :=
        { h1.objs oldId with
          content := (h1.objs oldId).content ++ (' ' :: systemInstruction) }
      let h2 : JSHeap :=
        { h1 with objs := upd h1.objs newObjId newObj, next := h1.next + 1 }
      let h3 : JSHeap :=
        { h2 with arrs := upd h2.arrs localId (msgs.set i newObjId) }
      (h3, localId)
    | none =>
      let newObjId := h1.next
      let h2 : JSHeap :=
        { h1 with
          objs := upd h1.objs newObjId ⟨VRole.system, systemInstruction⟩,
          next := h1.next + 1 }
      let h3 : JSHeap :=
        { h2 with arrs := upd h2.arrs localId (newObjId :: msgs) }
      (h3, localId)
  else (h1, localId)

/-- Source: the argument preparation of `streamChatCompletion`
(lines 16-53), which is textually the same copy-then-adjust logic as in
`getChatCompletion`. -/
def streamChatCompletionPrep (h : JSHeap) (messagesArr : ℕ)
    (modelId : AIModelId) (isReasoning : Bool) : JSHeap × ℕ :=
  let msgs := h.arrs messagesArr
  let localId := h.next
  let h1 : JSHeap :=
    { h with arrs := upd h.arrs localId msgs, next := h.next + 1 }
  if modelId = AIModelId.qwen3 ∧ isReasoning then
    match msgs.findIdx? (fun oid => decide ((h1.objs oid).role = VRole.system)) with
    | some i =>
      let oldId := msgs.getD i 0
      let newObjId := h1.next
      let newObj : GMessage :=
        { h1.objs oldId with
          content := (h1.objs oldId).content ++ (' ' :: systemInstruction) }
      let h2 : JSHeap :=
        { h1 with objs := upd h1.objs newObjId newObj, next := h1.next + 1 }
      let h3 : JSHeap :=
        { h2 with arrs := upd h2.arrs localId (msgs.set i newObjId) }
      (h3, localId)
    | none =>
      let newObjId := h1.next
      let h2 : JSHeap :=
        { h1 with
          objs := upd h1.objs newObjId ⟨VRole.system, systemInstruction⟩,
          next := h1.next + 1 }
      let h3 : JSHeap :=
        { h2 with arrs := upd h2.arrs localId (newObjId :: msgs) }
      (h3, localId)
  else (h1, localId)

/-- A heap is well formed at a caller array id when the id and every message
object id it holds were allocated below the fresh counter. -/
def WFHeap (h : JSHeap) (arrId : ℕ) : Prop :=
  arrId < h.next ∧ ∀ oid ∈ h.arrs arrId, oid < h.next

/- ===================================================================
   Theorems.  Claim C5: PCM encode clamping and round trip.
   =================================================================== -/

theorem ratTrunc_eq_floor {x : ℚ} (h : 0 ≤ x) : ratTrunc x = ⌊x⌋ := by
  rw [ratTrunc, Rat.floor_def]
  exact Int.tdiv_eq_ediv (Rat.num_nonneg.mpr h) (Int.natCast_nonneg _)

theorem ratTrunc_neg (x : ℚ) : ratTrunc (-x) = -ratTrunc x := by
  simp [ratTrunc, Rat.neg_num, Rat.neg_den, Int.neg_tdiv]

theorem ratTrunc_eq_ceil {x : ℚ} (h : x ≤ 0) : ratTrunc x = ⌈x⌉ := by
  have h2 : (0 : ℚ) ≤ -x := by linarith
  have h3 := ratTrunc_eq_floor h2
  rw [ratTrunc_neg, Int.floor_neg] at h3
  omega

theorem ratTrunc_intCast (n : ℤ) : ratTrunc (n : ℚ) = n := by
  simp [ratTrunc, Rat.num_intCast, Rat.den_intCast]

theorem intLe_ratTrunc {x : ℚ} {n : ℤ} (hx : x ≤ 0) (h : (n : ℚ) ≤ x) :
    n ≤ ratTrunc x := by
  rw [ratTrunc_eq_ceil hx]
  exact (Int.ceil_intCast (α := ℚ) n) ▸ Int.ceil_mono h

theorem ratTrunc_le_int {x : ℚ} {n : ℤ} (hx : 0 ≤ x) (h : x ≤ (n : ℚ)) :
    ratTrunc x ≤ n := by
  rw [ratTrunc_eq_floor hx]
  exact (Int.floor_intCast (α := ℚ) n) ▸ Int.floor_mono h

theorem ratTrunc_nonpos {x : ℚ} (h : x ≤ 0) : ratTrunc x ≤ 0 := by
  rw [ratTrunc_eq_ceil h]
  exact Int.ceil_le.mpr (by exact_mod_cast h)

theorem ratTrunc_nonneg {x : ℚ} (h : 0 ≤ x) : 0 ≤ ratTrunc x := by
  rw [ratTrunc_eq_floor h]
  exact Int.floor_nonneg.mpr h

theorem toInt16_eq (x : ℚ) (h1 : -32768 ≤ ratTrunc x) (h2 : ratTrunc x ≤ 32767) :
    toInt16 x = ratTrunc x := by
  rw [toInt16, Int.emod_eq_of_lt (by omega) (by omega)]
  omega

theorem pcmSample_one : floatTo16BitPCMSample 1 = 32767 := by
  have hc : max (-1 : ℚ) (min 1 1) = 1 := by
    rw [min_self]; exact max_eq_right (by norm_num)
  rw [floatTo16BitPCMSample]
  simp only [hc]
  rw [if_neg (by norm_num)]
  have : (1 : ℚ) * 0x7FFF = ((32767 : ℤ) : ℚ) := by norm_num
  rw [this, toInt16, ratTrunc_intCast]
  decide

theorem pcmSample_negOne : floatTo16BitPCMSample (-1) = -32768 := by
  have hc : max (-1 : ℚ) (min 1 (-1)) = -1 := by
    rw [min_eq_right (by norm_num : (-1 : ℚ) ≤ 1), max_self]
  rw [floatTo16BitPCMSample]
  simp only [hc]
  rw [if_pos (by norm_num : (-1 : ℚ) < 0)]
  have : (-1 : ℚ) * 0x8000 = ((-32768 : ℤ) : ℚ) := by norm_num
  rw [this, toInt16, ratTrunc_intCast]
  decide

theorem pcmSample_zero : floatTo16BitPCMSample 0 = 0 := by
  have hc : max (-1 : ℚ) (min 1 0) = 0 := by
    rw [min_eq_right (by norm_num : (0 : ℚ) ≤ 1)]
    exact max_eq_right (by norm_num)
  rw [floatTo16BitPCMSample]
  simp only [hc]
  rw [if_neg (by norm_num)]
  have : (0 : ℚ) * 0x7FFF = ((0 : ℤ) : ℚ) := by norm_num
  rw [this, toInt16, ratTrunc_intCast]
  decide

/-- Claim C5: the outbound PCM encoder clamps each sample to `[-1, 1]` and
scales negative values by `0x8000` and non-negative ones by `0x7FFF`
(truncated to an integer, with the 16-bit wrap never engaging); composed
with the inbound decoder (division by 32768), encoding `1.0` round-trips to
within one quantization step (`1/32768`) of `1.0`, encoding `-1.0`
round-trips to within one quantization step of `-1.0`, and encoding `0.0`
round-trips to exactly `0.0`. -/
theorem pcm_clamp_scale_roundtrip :
    (∀ s : ℚ, floatTo16BitPCMSample s =
      (if max (-1) (min 1 s) < 0 then ratTrunc (max (-1) (min 1 s) * 32768)
       else ratTrunc (max (-1) (min 1 s) * 32767)))
    ∧ |int16ToFloat (floatTo16BitPCMSample 1) - 1| ≤ 1 / 32768
    ∧ |int16ToFloat (floatTo16BitPCMSample (-1)) - -1| ≤ 1 / 32768
    ∧ int16ToFloat (floatTo16BitPCMSample 0) = 0 := by
  refine ⟨?_, ?_, ?_, ?_⟩
  · intro s
    set c := max (-1 : ℚ) (min 1 s) with hc
    have hc1 : (-1 : ℚ) ≤ c := le_max_left _ _
    have hc2 : c ≤ 1 := max_le (by norm_num) (min_le_left _ _)
    rw [floatTo16BitPCMSample]
    by_cases h : c < 0
    · rw [if_pos h, if_pos h]
      have hx0 : c * 32768 ≤ 0 := by nlinarith
      have hxlo : ((-32768 : ℤ) : ℚ) ≤ c * 32768 := by push_cast; nlinarith
      have e : (0x8000 : ℚ) = 32768 := by norm_num
      rw [e]
      exact toInt16_eq _ (intLe_ratTrunc hx0 hxlo)
        (le_trans (ratTrunc_nonpos hx0) (by norm_num))
    · rw [if_neg h, if_neg h]
      push_neg at h
      have hx0 : 0 ≤ c * 32767 := by nlinarith
      have hxhi : c * 32767 ≤ ((32767 : ℤ) : ℚ) := by push_cast; nlinarith
      have e : (0x7FFF : ℚ) = 32767 := by norm_num
      rw [e]
      exact toInt16_eq _
        (le_trans (by norm_num) (ratTrunc_nonneg hx0))
        (ratTrunc_le_int hx0 hxhi)
  · rw [pcmSample_one, int16ToFloat]
    rw [abs_le]
    constructor <;> norm_num
  · rw [pcmSample_negOne, int16ToFloat]
    rw [abs_le]
    constructor <;> norm_num
  · rw [pcmSample_zero, int16ToFloat]
    norm_num

/- ===================================================================
   Claim C2: gapless playback scheduling invariants.
   =================================================================== -/

theorem scheduleBuffer_busy (s : SchedState) (ct d : ℚ)
    (h : ct ≤ s.nextStartTime) : (scheduleBuffer s ct d).1 = s.nextStartTime := by
  simp only [scheduleBuffer]
  rw [if_neg (not_lt.mpr h)]

/-- Claim C2: each inbound buffer is scheduled to start at
`max(currentPlaybackClock, nextStartTime)` and `nextStartTime` then advances
by the buffer's duration; `nextStartTime` is monotonically non-decreasing
and, at every scheduling moment, ends up at or above the clock reading; and
while the channel is continuously busy (the next arrival is not after the
pending `nextStartTime`) consecutive buffers are scheduled back to back:
the next start equals the previous start plus the previous duration. -/
theorem playback_scheduler_gapless :
    (∀ (s : SchedState) (ct d : ℚ),
      (scheduleBuffer s ct d).1 = max ct s.nextStartTime)
    ∧ (∀ (s : SchedState) (ct d : ℚ), 0 ≤ d →
      s.nextStartTime ≤ (scheduleBuffer s ct d).2.nextStartTime)
    ∧ (∀ (s : SchedState) (ct d : ℚ), 0 ≤ d →
      ct ≤ (scheduleBuffer s ct d).2.nextStartTime)
    ∧ (∀ (s : SchedState) (ct1 d1 ct2 d2 : ℚ),
      ct2 ≤ (scheduleBuffer s ct1 d1).2.nextStartTime →
      (scheduleBuffer (scheduleBuffer s ct1 d1).2 ct2 d2).1 =
        (scheduleBuffer s ct1 d1).1 + d1)
    ∧ (∀ (s : SchedState) (ct d : ℚ) (rest : List (ℚ × ℚ)),
      scheduleRun s ((ct, d) :: rest) =
        (scheduleBuffer s ct d).1 :: scheduleRun (scheduleBuffer s ct d).2 rest) := by
  refine ⟨?_, ?_, ?_, ?_, ?_⟩
  · intro s ct d
    simp only [scheduleBuffer]
    split_ifs with h
    · exact (max_eq_left h.le).symm
    · exact (max_eq_right (le_of_not_lt h)).symm
  · intro s ct d hd
    simp only [scheduleBuffer]
    split_ifs with h <;> linarith
  · intro s ct d hd
    simp only [scheduleBuffer]
    split_ifs with h
    · linarith
    · have := le_of_not_lt h
      linarith
  · intro s ct1 d1 ct2 d2 hbusy
    exact scheduleBuffer_busy _ ct2 d2 hbusy
  · intro s ct d rest
    rfl

/-- Witness for C2 at concrete inputs: state `nextStartTime = 0`, a first
buffer arriving at clock 0 with duration 1, and a second arrival at clock 1
(continuously busy). -/
theorem playback_scheduler_gapless_witness :
    ((0 : ℚ) ≤ 1 ∧
      (SchedState.mk 0).nextStartTime ≤ (scheduleBuffer ⟨0⟩ 0 1).2.nextStartTime)
    ∧ ((0 : ℚ) ≤ (scheduleBuffer ⟨0⟩ 0 1).2.nextStartTime)
    ∧ ((1 : ℚ) ≤ (scheduleBuffer ⟨0⟩ 0 1).2.nextStartTime ∧
      (scheduleBuffer (scheduleBuffer ⟨0⟩ 0 1).2 1 2).1 =
        (scheduleBuffer ⟨0⟩ 0 1).1 + 1) :=
  ⟨⟨zero_le_one, playback_scheduler_gapless.2.1 ⟨0⟩ 0 1 zero_le_one⟩,
   playback_scheduler_gapless.2.2.1 ⟨0⟩ 0 1 zero_le_one,
   ⟨by simp [scheduleBuffer],
    playback_scheduler_gapless.2.2.2.1 ⟨0⟩ 0 1 1 2 (by simp [scheduleBuffer])⟩⟩

/- ===================================================================
   Claim C1: the VAD loop raises "turn complete" correctly.
   =================================================================== -/

theorem vadStep_of_processing (s : VadState) (t : ℕ) (v : ℚ)
    (h : s.processing = true) : vadStep s t v = (s, false) := by
  simp [vadStep, h]

theorem vadRun_of_processing (s : VadState) (fr : List (ℕ × ℚ))
    (h : s.processing = true) : vadRun s fr = (s, 0) := by
  induction fr with
  | nil => rfl
  | cons p rest ih =>
    obtain ⟨t, v⟩ := p
    simp [vadRun, vadStep_of_processing s t v h, ih]

theorem vadStep_event_locks (s : VadState) (t : ℕ) (v : ℚ)
    (h : (vadStep s t v).2 = true) : (vadStep s t v).1.processing = true := by
  unfold vadStep vadSilenceStep at h ⊢
  split_ifs at h ⊢ <;> simp_all

theorem vadStep_silent_notSpoken (s : VadState) (t : ℕ) (v : ℚ)
    (h1 : s.hasSpoken = false) (h2 : v ≤ SILENCE_THRESHOLD) :
    vadStep s t v = (s, false) := by
  unfold vadStep
  by_cases hg : (!s.handsFree || !s.listening || s.processing) = true
  · rw [if_pos hg]
  · rw [if_neg hg, if_neg (not_lt.mpr h2), if_neg (by simp [h1])]

theorem vadRun_silent_notSpoken (fr : List (ℕ × ℚ)) (s : VadState)
    (h1 : s.hasSpoken = false)
    (h : ∀ p ∈ fr, p.2 ≤ SILENCE_THRESHOLD) : vadRun s fr = (s, 0) := by
  induction fr with
  | nil => rfl
  | cons p rest ih =>
    obtain ⟨t, v⟩ := p
    have hv : v ≤ SILENCE_THRESHOLD := h (t, v) (List.mem_cons_self _ _)
    simp [vadRun, vadStep_silent_notSpoken s t v h1 hv,
      ih fun q hq => h q (List.mem_cons_of_mem _ hq)]

/-- Claim C1: over any sequence of per-frame mean-magnitude samples, the VAD
loop raises "turn complete" at most once per turn (re-arming only through
the reset of a new listening session); a run from the reset state over only
sub-threshold frames raises no event; a single frame raises the event
exactly when the loop is active (hands-free, listening, not locked), the
frame is sub-threshold, speech had previously started, a silence start is
latched, and the silence duration since that first silent frame exceeds
`SILENCE_DURATION`; the first sub-threshold frame after speech latches
`silenceStartedAt` without raising the event; a super-threshold frame
records speech and clears the latch; and raising the event locks the
processing flag. -/
theorem vad_turn_complete :
    (∀ (s : VadState) (fr : List (ℕ × ℚ)), (vadRun s fr).2 ≤ 1)
    ∧ (∀ fr : List (ℕ × ℚ), (∀ p ∈ fr, p.2 ≤ SILENCE_THRESHOLD) →
      (vadRun vadInit fr).2 = 0)
    ∧ (∀ (s : VadState) (t : ℕ) (v : ℚ),
      (vadStep s t v).2 = true ↔
        (s.handsFree = true ∧ s.listening = true ∧ s.processing = false ∧
         v ≤ SILENCE_THRESHOLD ∧ s.hasSpoken = true ∧ s.silenceStart ≠ 0 ∧
         SILENCE_DURATION < t - s.silenceStart))
    ∧ (∀ (s : VadState) (t : ℕ) (v : ℚ),
      s.handsFree = true → s.listening = true → s.processing = false →
      v ≤ SILENCE_THRESHOLD → s.hasSpoken = true → s.silenceStart = 0 →
      (vadStep s t v).1.silenceStart = t ∧ (vadStep s t v).2 = false)
    ∧ (∀ (s : VadState) (t : ℕ) (v : ℚ),
      SILENCE_THRESHOLD < v → s.handsFree = true → s.listening = true →
      s.processing = false →
      (vadStep s t v).1.silenceStart = 0 ∧ (vadStep s t v).1.hasSpoken = true ∧
        (vadStep s t v).1.lastSpeech = t)
    ∧ (∀ (s : VadState) (t : ℕ) (v : ℚ),
      (vadStep s t v).2 = true → (vadStep s t v).1.processing = true) := by
  refine ⟨?_, ?_, ?_, ?_, ?_, vadStep_event_locks⟩
  · intro s fr
    induction fr generalizing s with
    | nil => simp [vadRun]
    | cons p rest ih =>
      obtain ⟨t, v⟩ := p
      simp only [vadRun]
      by_cases he : (vadStep s t v).2 = true
      · rw [vadRun_of_processing _ _ (vadStep_event_locks s t v he)]
        simp [he]
      · simp only [Bool.not_eq_true] at he
        simp only [he, if_neg]
        simpa using ih (vadStep s t v).1
  · intro fr h
    rw [vadRun_silent_notSpoken fr vadInit rfl h]
  · intro s t v
    constructor
    · intro h
      unfold vadStep vadSilenceStep at h
      split_ifs at h with h1 h2 h3 h4 h5 h6 <;>
        simp_all [Bool.or_eq_true, Bool.not_eq_true', not_or]
    · rintro ⟨h1, h2, h3, h4, h5, h6, h7⟩
      unfold vadStep vadSilenceStep
      rw [if_neg (by simp [h1, h2, h3]), if_neg (not_lt.mpr h4), if_pos h5,
        if_neg h6]
      simp only []
      rw [if_pos (by simpa using h7)]
  · intro s t v h1 h2 h3 h4 h5 h6
    unfold vadStep vadSilenceStep
    rw [if_neg (by simp [h1, h2, h3]), if_neg (not_lt.mpr h4), if_pos h5,
      if_pos h6]
    rw [if_neg (by simp)]
    simp
  · intro s t v hv h1 h2 h3
    unfold vadStep
    rw [if_neg (by simp [h1, h2, h3]), if_pos hv]
    exact ⟨rfl, rfl, rfl⟩

theorem q_fifteen_le : (15 : ℚ) ≤ SILENCE_THRESHOLD :=
  le_refl _

theorem q_sixteen_gt : SILENCE_THRESHOLD < (16 : ℚ) := by
  norm_num [SILENCE_THRESHOLD]

/-- Witness for C1 at concrete inputs: the silence-only run `[(1, 15)]` from
the reset state, a latching first silent frame, and a speech frame. -/
theorem vad_turn_complete_witness :
    ((∀ p ∈ [((1 : ℕ), (15 : ℚ))], p.2 ≤ SILENCE_THRESHOLD) ∧
      (vadRun vadInit [((1 : ℕ), (15 : ℚ))]).2 = 0)
    ∧ ((15 : ℚ) ≤ SILENCE_THRESHOLD ∧
      (vadStep { vadInit with hasSpoken := true } 7 15).1.silenceStart = 7 ∧
      (vadStep { vadInit with hasSpoken := true } 7 15).2 = false)
    ∧ (SILENCE_THRESHOLD < (16 : ℚ) ∧
      (vadStep vadInit 3 16).1.silenceStart = 0 ∧
      (vadStep vadInit 3 16).1.hasSpoken = true ∧
      (vadStep vadInit 3 16).1.lastSpeech = 3) := by
  refine ⟨⟨?_, ?_⟩, ⟨q_fifteen_le, ?_⟩, ⟨q_sixteen_gt, ?_⟩⟩
  · intro p hp
    rw [List.mem_singleton] at hp
    rw [hp]
    exact q_fifteen_le
  · exact vad_turn_complete.2.1 [((1 : ℕ), (15 : ℚ))]
      (fun p hp => by
        rw [List.mem_singleton] at hp
        rw [hp]
        exact q_fifteen_le)
  · exact vad_turn_complete.2.2.2.1 { vadInit with hasSpoken := true } 7 15
      rfl rfl rfl q_fifteen_le rfl rfl
  · exact vad_turn_complete.2.2.2.2.1 vadInit 3 16 q_sixteen_gt rfl rfl rfl

/- ===================================================================
   Thought-tag stripping: structure lemmas.
   =================================================================== -/

theorem startsWithL_append (p l : List Char) : startsWithL p (p ++ l) = true := by
  induction p with
  | nil => rfl
  | cons c cs ih => simp [startsWithL, ih]

theorem startsWithL_length {p l : List Char} (h : startsWithL p l = true) :
    p.length ≤ l.length := by
  induction p generalizing l with
  | nil => simp
  | cons c cs ih =>
    cases l with
    | nil => simp [startsWithL] at h
    | cons b ls =>
      simp only [startsWithL, Bool.and_eq_true] at h
      have := ih h.2
      simp only [List.length_cons]
      omega

theorem afterClose_length {l r : List Char} (h : afterClose l = some r) :
    r.length + 8 ≤ l.length := by
  induction l with
  | nil => simp [afterClose] at h
  | cons c rest ih =>
    unfold afterClose at h
    split_ifs at h with hs
    · have hlen : (8 : ℕ) ≤ (c :: rest).length := startsWithL_length hs
      rw [Option.some_inj] at h
      rw [← h, List.length_drop]
      omega
    · have := ih h
      simp only [List.length_cons]
      omega

theorem afterClose_boundary (inner post : List Char) (h : '<' ∉ inner) :
    afterClose (inner ++ (thinkClose ++ post)) = some post := by
  induction inner with
  | nil =>
    show afterClose (thinkClose ++ post) = some post
    rw [show thinkClose ++ post =
      '<' :: ('/' :: 't' :: 'h' :: 'i' :: 'n' :: 'k' :: '>' :: post) from rfl]
    unfold afterClose
    rw [if_pos (show startsWithL thinkClose
      ('<' :: ('/' :: 't' :: 'h' :: 'i' :: 'n' :: 'k' :: '>' :: post)) = true from
      startsWithL_append thinkClose post)]
    rfl
  | cons c cs ih =>
    have hc : ('<' : Char) ≠ c := fun hcc => h (hcc ▸ List.mem_cons_self c cs)
    show afterClose (c :: (cs ++ (thinkClose ++ post))) = some post
    unfold afterClose
    rw [if_neg (by simp [startsWithL, hc]), ih fun hm => h (List.mem_cons_of_mem _ hm)]

theorem stripThinkGo_congr (f : ℕ) : ∀ (g : ℕ) (l : List Char),
    l.length ≤ f → l.length ≤ g → stripThinkGo f l = stripThinkGo g l := by
  induction f with
  | zero =>
    intro g l hf _
    have : l = [] := List.eq_nil_of_length_eq_zero (Nat.le_zero.mp hf)
    subst this
    cases g <;> rfl
  | succ f ih =>
    intro g l hf hg
    cases l with
    | nil => cases g <;> rfl
    | cons c rest =>
      cases g with
      | zero => simp at hg
      | succ g =>
        simp only [List.length_cons] at hf hg
        show stripThinkGo (f + 1) (c :: rest) = stripThinkGo (g + 1) (c :: rest)
        unfold stripThinkGo
        by_cases hs : startsWithL thinkOpen (c :: rest) = true
        · rw [if_pos hs, if_pos hs]
          cases hac : afterClose (rest.drop 6) with
          | some r =>
            have hr : r.length + 8 ≤ (rest.drop 6).length := afterClose_length hac
            rw [List.length_drop] at hr
            exact ih g r (by omega) (by omega)
          | none =>
            rw [ih g rest (by omega) (by omega)]
        · rw [if_neg hs, if_neg hs, ih g rest (by omega) (by omega)]

theorem stripThink_no_tag_go (f : ℕ) : ∀ l : List Char, '<' ∉ l →
    stripThinkGo f l = l := by
  induction f with
  | zero => intro l _; rfl
  | succ f ih =>
    intro l h
    cases l with
    | nil => rfl
    | cons c rest =>
      have hc : ('<' : Char) ≠ c := fun hcc => h (hcc ▸ List.mem_cons_self c rest)
      unfold stripThinkGo
      rw [if_neg (by simp [startsWithL, hc]),
        ih rest fun hm => h (List.mem_cons_of_mem _ hm)]

theorem stripThink_no_tag (l : List Char) (h : '<' ∉ l) : stripThink l = l :=
  stripThink_no_tag_go l.length l h

theorem stripThink_segment (inner post : List Char) (h : '<' ∉ inner) :
    stripThink (thinkOpen ++ (inner ++ (thinkClose ++ post))) = stripThink post := by
  set X := inner ++ (thinkClose ++ post) with hX
  have hXlen : post.length ≤ X.length := by
    simp [hX, thinkClose]
    omega
  have e : thinkOpen ++ X =
      '<' :: ('t' :: 'h' :: 'i' :: 'n' :: 'k' :: '>' :: X) := rfl
  have elen : (thinkOpen ++ X).length = (6 + X.length) + 1 := by
    simp [thinkOpen]
    omega
  rw [stripThink, elen, e]
  show stripThinkGo ((6 + X.length) + 1)
      ('<' :: ('t' :: 'h' :: 'i' :: 'n' :: 'k' :: '>' :: X)) = stripThink post
  unfold stripThinkGo
  rw [if_pos (show startsWithL thinkOpen
    ('<' :: ('t' :: 'h' :: 'i' :: 'n' :: 'k' :: '>' :: X)) = true from
    startsWithL_append thinkOpen X)]
  rw [show ('t' :: 'h' :: 'i' :: 'n' :: 'k' :: '>' :: X).drop 6 = X from rfl]
  rw [hX, afterClose_boundary inner post h]
  exact stripThinkGo_congr (6 + X.length) post.length post (by omega) (le_refl _)

theorem stripThink_example :
    stripThink "<think>reasoning</think>Hello".toList = "Hello".toList := by
  have e : "<think>reasoning</think>Hello".toList =
      thinkOpen ++ ("reasoning".toList ++ (thinkClose ++ "Hello".toList)) := by
    decide
  rw [e, stripThink_segment _ _ (by decide), stripThink_no_tag _ (by decide)]

/- ===================================================================
   Claim C3: reentrancy guard around "turn complete".
   =================================================================== -/

theorem processTurn_transcribe_once (s : VoiceState) (o : TurnOracles) (now : ℕ) :
    (processConversationTurn s o now).2.transcribeCalls = 1 := by
  unfold processConversationTurn
  cases htr : o.transcribeR with
  | error => rfl
  | ok t =>
    dsimp only
    by_cases h1 : trimL t = []
    · rw [if_pos h1]
    · rw [if_neg h1]
      cases hc : o.completeR with
      | error => rfl
      | ok ai =>
        dsimp only
        by_cases h2 : trimL (stripThink ai) ≠ []
        · rw [if_pos h2]
          cases hsy : o.synthR with
          | error => rfl
          | ok _ => rfl
        · rw [if_neg h2]

theorem processTurn_lock_clear (s : VoiceState) (o : TurnOracles) (now : ℕ)
    (hl : s.lock = true) :
    (processConversationTurn s o now).1.lock = false →
    (processConversationTurn s o now).1.status = VStatus.idle ∨
      (processConversationTurn s o now).1.status = VStatus.listening := by
  unfold processConversationTurn
  cases htr : o.transcribeR with
  | error => intro _; exact Or.inl rfl
  | ok t =>
    dsimp only
    by_cases h1 : trimL t = []
    · rw [if_pos h1]
      by_cases hf : s.handsFree = true
      · rw [if_pos hf]
        unfold handleStartListening
        by_cases hk : s.apiKeySet = true
        · simp only [hk, Bool.not_true, Bool.false_eq_true, if_false]
          intro _
          exact Or.inr trivial
        · simp only [Bool.not_eq_true] at hk
          simp only [hk, Bool.not_false, if_true]
          intro hlf
          simp [hl] at hlf
      · rw [if_neg hf]
        intro _
        exact Or.inl rfl
    · rw [if_neg h1]
      cases hc : o.completeR with
      | error => intro _; exact Or.inl rfl
      | ok ai =>
        dsimp only
        by_cases h2 : trimL (stripThink ai) ≠ []
        · rw [if_pos h2]
          cases hsy : o.synthR with
          | error => intro _; exact Or.inl rfl
          | ok _ =>
            dsimp only
            unfold playAudioResponse
            cases hp : o.playR with
            | error => intro _; exact Or.inl rfl
            | ok _ =>
              dsimp only
              intro hlf
              simp [hl] at hlf
        · rw [if_neg h2]
          by_cases hf : s.handsFree = true
          · rw [if_pos hf]
            unfold handleStartListening
            by_cases hk : s.apiKeySet = true
            · simp only [hk, Bool.not_true, Bool.false_eq_true, if_false]
              intro _
              exact Or.inr trivial
            · simp only [Bool.not_eq_true] at hk
              simp only [hk, Bool.not_false, if_true]
              intro hlf
              simp [hl] at hlf
          · rw [if_neg hf]
            intro hlf
            simp [hl] at hlf

/-- Claim C3: the reentrancy guard gives two racing "turn complete" triggers
of the same turn exactly one transcription call.  A trigger arriving while
the state is not `listening` or while the lock is set is dropped, not
queued (the state is unchanged and no call is made); a passing trigger
atomically sets the lock and enters `processing`, so the racing second
trigger, which observes the locked intermediate state, is dropped while the
first makes its single transcription call; and the lock is cleared only on
reaching `idle` or re-entering `listening`. -/
theorem reentrancy_guard :
    (∀ (s : VoiceState) (o : TurnOracles) (now : ℕ),
      s.lock = true ∨ s.status ≠ VStatus.listening →
      handleStopAndProcess s o now = (s, emptyTrace))
    ∧ (∀ (s : VoiceState) (o o2 : TurnOracles) (now now2 : ℕ),
      s.status = VStatus.listening → s.lock = false → o.clipProduced = true →
      (handleStopAndProcess s o now).2.transcribeCalls = 1 ∧
      handleStopAndProcess (lockEnter s) o2 now2 = (lockEnter s, emptyTrace))
    ∧ (∀ s : VoiceState,
      (lockEnter s).lock = true ∧ (lockEnter s).status = VStatus.processing)
    ∧ (∀ (s : VoiceState) (o : TurnOracles) (now : ℕ), s.lock = true →
      (processConversationTurn s o now).1.lock = false →
      (processConversationTurn s o now).1.status = VStatus.idle ∨
        (processConversationTurn s o now).1.status = VStatus.listening)
    ∧ (∀ s : VoiceState, s.lock = true → (sourceEnded s).lock = false →
      (sourceEnded s).status = VStatus.idle ∨
        (sourceEnded s).status = VStatus.listening) := by
  refine ⟨?_, ?_, fun s => ⟨rfl, rfl⟩, processTurn_lock_clear, ?_⟩
  · intro s o now h
    unfold handleStopAndProcess
    rw [if_pos (by rcases h with h | h; exacts [Or.inr h, Or.inl h])]
  · intro s o o2 now now2 hs hl hclip
    constructor
    · unfold handleStopAndProcess
      rw [if_neg (by simp [hs, hl]), if_pos hclip]
      exact processTurn_transcribe_once _ _ _
    · unfold handleStopAndProcess
      rw [if_pos (Or.inl (by simp [lockEnter]))]
  · intro s hl
    unfold sourceEnded handleStartListening
    split_ifs <;> simp_all

/-- Witness for C3 at concrete inputs: a dropped trigger on a locked state,
a listening unlocked state with a produced clip making its one
transcription call while the trigger racing it on the locked intermediate
state is dropped, and the lock-clearing site of playback completion. -/
theorem reentrancy_guard_witness :
    ((VoiceState.mk VStatus.processing true [] [] false true false 0 0).lock = true ∨
      (VoiceState.mk VStatus.processing true [] [] false true false 0 0).status ≠
        VStatus.listening) ∧
    handleStopAndProcess (VoiceState.mk VStatus.processing true [] [] false true false 0 0)
      (TurnOracles.mk true (CallResult.ok "hi".toList) (CallResult.ok "ok".toList)
        (CallResult.ok ()) (CallResult.ok ())) 3 =
      ((VoiceState.mk VStatus.processing true [] [] false true false 0 0), emptyTrace) ∧
    ((VoiceState.mk VStatus.listening false [] [] false true false 0 0).status =
        VStatus.listening ∧
      (handleStopAndProcess (VoiceState.mk VStatus.listening false [] [] false true false 0 0)
        (TurnOracles.mk true (CallResult.ok "hi".toList) (CallResult.ok "ok".toList)
          (CallResult.ok ()) (CallResult.ok ())) 3).2.transcribeCalls = 1 ∧
      handleStopAndProcess
        (lockEnter (VoiceState.mk VStatus.listening false [] [] false true false 0 0))
        (TurnOracles.mk true (CallResult.ok "hi".toList) (CallResult.ok "ok".toList)
          (CallResult.ok ()) (CallResult.ok ())) 4 =
        (lockEnter (VoiceState.mk VStatus.listening false [] [] false true false 0 0),
          emptyTrace)) ∧
    ((VoiceState.mk VStatus.speaking true [] [] false true false 0 0).lock = true ∧
      ((sourceEnded (VoiceState.mk VStatus.speaking true [] [] false true false 0 0)).lock =
          false →
        (sourceEnded (VoiceState.mk VStatus.speaking true [] [] false true false 0 0)).status =
            VStatus.idle ∨
          (sourceEnded (VoiceState.mk VStatus.speaking true [] [] false true false 0 0)).status =
            VStatus.listening)) := by
  refine ⟨Or.inl rfl, ?_, ⟨rfl, ?_, ?_⟩, ⟨rfl, ?_⟩⟩
  · exact reentrancy_guard.1 _ _ 3 (Or.inl rfl)
  · exact (reentrancy_guard.2.1 _ _
      (TurnOracles.mk true (CallResult.ok "hi".toList) (CallResult.ok "ok".toList)
        (CallResult.ok ()) (CallResult.ok ())) 3 4 rfl rfl rfl).1
  · exact (reentrancy_guard.2.1 _
      (TurnOracles.mk true (CallResult.ok "hi".toList) (CallResult.ok "ok".toList)
        (CallResult.ok ()) (CallResult.ok ())) _ 3 4 rfl rfl rfl).2
  · exact reentrancy_guard.2.2.2.2 _ rfl

/- ===================================================================
   Claim C7: empty/whitespace-only transcripts skip the completion.
   =================================================================== -/

/-- Claim C7: a transcription result that trims to the empty string makes
the orchestrator return directly to `listening` (hands-free) or `idle`
(manual), with the lock cleared, without invoking the completion or
synthesis services, with no failure handler run, and with no message (in
particular no error entry) added. -/
theorem empty_transcript_no_completion :
    ∀ (s : VoiceState) (o : TurnOracles) (now : ℕ) (t : List Char),
      s.apiKeySet = true → o.transcribeR = CallResult.ok t → trimL t = [] →
      (processConversationTurn s o now).2.completionCalls = 0 ∧
      (processConversationTurn s o now).2.synthCalls = 0 ∧
      (processConversationTurn s o now).2.failed = false ∧
      (processConversationTurn s o now).1.messages = s.messages ∧
      (processConversationTurn s o now).1.lock = false ∧
      (processConversationTurn s o now).1.status =
        (if s.handsFree = true then VStatus.listening else VStatus.idle) := by
  intro s o now t hk htr ht
  unfold processConversationTurn
  rw [htr]
  dsimp only
  rw [if_pos ht]
  by_cases hf : s.handsFree = true
  · rw [if_pos hf, if_pos hf]
    unfold handleStartListening
    simp [hk]
  · rw [if_neg hf, if_neg hf]
    exact ⟨rfl, rfl, rfl, rfl, rfl, rfl⟩

/-- Witness for C7: a whitespace-only transcript in hands-free mode with the
API key configured. -/
theorem empty_transcript_no_completion_witness :
    ((VoiceState.mk VStatus.processing true [] [] true true false 0 0).apiKeySet = true ∧
      trimL " ".toList = []) ∧
    ((processConversationTurn (VoiceState.mk VStatus.processing true [] [] true true false 0 0)
        (TurnOracles.mk true (CallResult.ok " ".toList) (CallResult.ok [])
          (CallResult.ok ()) (CallResult.ok ())) 9).2.completionCalls = 0 ∧
      (processConversationTurn (VoiceState.mk VStatus.processing true [] [] true true false 0 0)
        (TurnOracles.mk true (CallResult.ok " ".toList) (CallResult.ok [])
          (CallResult.ok ()) (CallResult.ok ())) 9).2.synthCalls = 0 ∧
      (processConversationTurn (VoiceState.mk VStatus.processing true [] [] true true false 0 0)
        (TurnOracles.mk true (CallResult.ok " ".toList) (CallResult.ok [])
          (CallResult.ok ()) (CallResult.ok ())) 9).2.failed = false ∧
      (processConversationTurn (VoiceState.mk VStatus.processing true [] [] true true false 0 0)
        (TurnOracles.mk true (CallResult.ok " ".toList) (CallResult.ok [])
          (CallResult.ok ()) (CallResult.ok ())) 9).1.messages =
        (VoiceState.mk VStatus.processing true [] [] true true false 0 0).messages ∧
      (processConversationTurn (VoiceState.mk VStatus.processing true [] [] true true false 0 0)
        (TurnOracles.mk true (CallResult.ok " ".toList) (CallResult.ok [])
          (CallResult.ok ()) (CallResult.ok ())) 9).1.lock = false ∧
      (processConversationTurn (VoiceState.mk VStatus.processing true [] [] true true false 0 0)
        (TurnOracles.mk true (CallResult.ok " ".toList) (CallResult.ok [])
          (CallResult.ok ()) (CallResult.ok ())) 9).1.status =
        (if (VoiceState.mk VStatus.processing true [] [] true true false 0 0).handsFree = true
         then VStatus.listening else VStatus.idle)) :=
  ⟨⟨rfl, by decide⟩,
    empty_transcript_no_completion
      (VoiceState.mk VStatus.processing true [] [] true true false 0 0)
      (TurnOracles.mk true (CallResult.ok " ".toList) (CallResult.ok [])
        (CallResult.ok ()) (CallResult.ok ())) 9 " ".toList rfl rfl (by decide)⟩

/- ===================================================================
   Claim C6: thought-tag stripping before synthesis.
   =================================================================== -/

/-- Claim C6: every embedded `<think>...</think>` segment is removed before
synthesis and the result trimmed; the concrete response
`"<think>reasoning</think>Hello"` reaches synthesis exactly as `"Hello"`;
and when the stripped-and-trimmed residual text is empty, synthesis is
skipped entirely and the state goes directly to `listening` (hands-free) or
`idle` (manual). -/
theorem thought_tag_stripping :
    (∀ inner post : List Char, '<' ∉ inner →
      stripThink (thinkOpen ++ (inner ++ (thinkClose ++ post))) = stripThink post)
    ∧ (∀ l : List Char, '<' ∉ l → stripThink l = l)
    ∧ (∀ (s : VoiceState) (o : TurnOracles) (now : ℕ) (t : List Char),
      o.transcribeR = CallResult.ok t → trimL t ≠ [] →
      o.completeR = CallResult.ok "<think>reasoning</think>Hello".toList →
      (processConversationTurn s o now).2.synthInput = some "Hello".toList)
    ∧ (∀ (s : VoiceState) (o : TurnOracles) (now : ℕ) (t ai : List Char),
      s.apiKeySet = true →
      o.transcribeR = CallResult.ok t → trimL t ≠ [] →
      o.completeR = CallResult.ok ai → trimL (stripThink ai) = [] →
      (processConversationTurn s o now).2.synthCalls = 0 ∧
      (processConversationTurn s o now).1.status =
        (if s.handsFree = true then VStatus.listening else VStatus.idle)) := by
  refine ⟨stripThink_segment, stripThink_no_tag, ?_, ?_⟩
  · intro s o now t htr ht hc
    unfold processConversationTurn
    rw [htr]
    dsimp only
    rw [if_neg ht, hc]
    dsimp only
    rw [stripThink_example]
    rw [if_pos (by decide : trimL "Hello".toList ≠ [])]
    cases hsy : o.synthR with
    | error => rfl
    | ok _ => rfl
  · intro s o now t ai hk htr ht hcc hstrip
    unfold processConversationTurn
    rw [htr]
    dsimp only
    rw [if_neg ht, hcc]
    dsimp only
    rw [if_neg (fun hn => hn hstrip)]
    refine ⟨rfl, ?_⟩
    by_cases hf : s.handsFree = true
    · rw [if_pos hf, if_pos hf]
      unfold handleStartListening
      simp [hk]
    · rw [if_neg hf, if_neg hf]

/-- Witness for C6: the concrete segment `"<think>reasoning</think>Hi"`, the
tag-free string `"Hi"`, a turn whose completion is
`"<think>reasoning</think>Hello"`, and a turn whose completion is the
thought-only `"<think>x</think>"` in manual mode. -/
theorem thought_tag_stripping_witness :
    (('<' ∉ "reasoning".toList) ∧
      stripThink (thinkOpen ++ ("reasoning".toList ++ (thinkClose ++ "Hi".toList))) =
        stripThink "Hi".toList) ∧
    (('<' ∉ "Hi".toList) ∧ stripThink "Hi".toList = "Hi".toList) ∧
    (trimL "q".toList ≠ [] ∧
      (processConversationTurn (VoiceState.mk VStatus.processing true [] [] false true false 0 0)
        (TurnOracles.mk true (CallResult.ok "q".toList)
          (CallResult.ok "<think>reasoning</think>Hello".toList)
          (CallResult.ok ()) (CallResult.ok ())) 2).2.synthInput =
        some "Hello".toList) ∧
    (trimL (stripThink "<think>x</think>".toList) = [] ∧
      (processConversationTurn (VoiceState.mk VStatus.processing true [] [] false true false 0 0)
        (TurnOracles.mk true (CallResult.ok "q".toList)
          (CallResult.ok "<think>x</think>".toList)
          (CallResult.ok ()) (CallResult.ok ())) 2).2.synthCalls = 0 ∧
      (processConversationTurn (VoiceState.mk VStatus.processing true [] [] false true false 0 0)
        (TurnOracles.mk true (CallResult.ok "q".toList)
          (CallResult.ok "<think>x</think>".toList)
          (CallResult.ok ()) (CallResult.ok ())) 2).1.status =
        (if (VoiceState.mk VStatus.processing true [] [] false true false 0 0).handsFree = true
         then VStatus.listening else VStatus.idle)) := by
  refine ⟨⟨by decide, ?_⟩, ⟨by decide, ?_⟩, ⟨by decide, ?_⟩, ⟨by decide, ?_, ?_⟩⟩
  · exact thought_tag_stripping.1 "reasoning".toList "Hi".toList (by decide)
  · exact thought_tag_stripping.2.1 "Hi".toList (by decide)
  · exact thought_tag_stripping.2.2.1
      (VoiceState.mk VStatus.processing true [] [] false true false 0 0)
      (TurnOracles.mk true (CallResult.ok "q".toList)
        (CallResult.ok "<think>reasoning</think>Hello".toList)
        (CallResult.ok ()) (CallResult.ok ())) 2 "q".toList rfl (by decide) rfl
  · exact (thought_tag_stripping.2.2.2
      (VoiceState.mk VStatus.processing true [] [] false true false 0 0)
      (TurnOracles.mk true (CallResult.ok "q".toList)
        (CallResult.ok "<think>x</think>".toList)
        (CallResult.ok ()) (CallResult.ok ())) 2 "q".toList
      "<think>x</think>".toList rfl rfl (by decide) rfl (by decide)).1
  · exact (thought_tag_stripping.2.2.2
      (VoiceState.mk VStatus.processing true [] [] false true false 0 0)
      (TurnOracles.mk true (CallResult.ok "q".toList)
        (CallResult.ok "<think>x</think>".toList)
        (CallResult.ok ()) (CallResult.ok ())) 2 "q".toList
      "<think>x</think>".toList rfl rfl (by decide) rfl (by decide)).2

/- ===================================================================
   Claim C4: failure handling of the processing phase.
   The code transitions to `idle` and clears the lock, but surfaces no
   user-visible error entry: the `catch` handlers only log to the console.
   =================================================================== -/

/-- Counterexample to C4 as stated: with a failing transcription call from
the usual processing state, the orchestrator reaches `idle` with the lock
cleared and the failure handler run, yet the message list is exactly the
initial one — no system-visible error entry of any kind is surfaced to the
user. -/
theorem provider_failure_no_error_entry :
    (processConversationTurn
        (VoiceState.mk VStatus.processing true
          [VMessage.mk VRole.system "Hands-free voice module initialized.".toList 0]
          [] false true false 0 0)
        (TurnOracles.mk true CallResult.error (CallResult.ok [])
          (CallResult.ok ()) (CallResult.ok ())) 5).2.failed = true ∧
    (processConversationTurn
        (VoiceState.mk VStatus.processing true
          [VMessage.mk VRole.system "Hands-free voice module initialized.".toList 0]
          [] false true false 0 0)
        (TurnOracles.mk true CallResult.error (CallResult.ok [])
          (CallResult.ok ()) (CallResult.ok ())) 5).1.status = VStatus.idle ∧
    (processConversationTurn
        (VoiceState.mk VStatus.processing true
          [VMessage.mk VRole.system "Hands-free voice module initialized.".toList 0]
          [] false true false 0 0)
        (TurnOracles.mk true CallResult.error (CallResult.ok [])
          (CallResult.ok ()) (CallResult.ok ())) 5).1.lock = false ∧
    (processConversationTurn
        (VoiceState.mk VStatus.processing true
          [VMessage.mk VRole.system "Hands-free voice module initialized.".toList 0]
          [] false true false 0 0)
        (TurnOracles.mk true CallResult.error (CallResult.ok [])
          (CallResult.ok ()) (CallResult.ok ())) 5).1.messages =
      [VMessage.mk VRole.system "Hands-free voice module initialized.".toList 0] := by
  decide

/-- Claim C4 (amended): for every failure thrown by any step of the
processing phase (transcription, completion, synthesis, or audio
decode/playback start), the orchestrator transitions directly to `idle` and
clears the processing lock — it is never left in `processing` or
`listening` — but it surfaces no system-visible error entry: the failure is
only logged to the console, and the message list gains no system entry
(only the user/assistant turns already appended before the failure). -/
theorem provider_failure_resets_to_idle :
    ∀ (s : VoiceState) (o : TurnOracles) (now : ℕ),
      (processConversationTurn s o now).2.failed = true →
      (processConversationTurn s o now).1.status = VStatus.idle ∧
      (processConversationTurn s o now).1.lock = false ∧
      ∀ m ∈ (processConversationTurn s o now).1.messages,
        m ∈ s.messages ∨ m.role ≠ VRole.system := by
  intro s o now
  unfold processConversationTurn
  cases htr : o.transcribeR with
  | error =>
    intro _
    exact ⟨rfl, rfl, fun m hm => Or.inl hm⟩
  | ok t =>
    dsimp only
    by_cases h1 : trimL t = []
    · rw [if_pos h1]
      intro hfail
      simp at hfail
    · rw [if_neg h1]
      cases hc : o.completeR with
      | error =>
        intro _
        refine ⟨rfl, rfl, fun m hm => ?_⟩
        rcases List.mem_append.mp hm with h | h
        · exact Or.inl h
        · rw [List.mem_singleton] at h
          subst h
          exact Or.inr fun hcon => nomatch hcon
      | ok ai =>
        dsimp only
        by_cases h2 : trimL (stripThink ai) ≠ []
        · rw [if_pos h2]
          cases hsy : o.synthR with
          | error =>
            intro _
            refine ⟨rfl, rfl, fun m hm => ?_⟩
            rcases List.mem_append.mp hm with h | h
            · rcases List.mem_append.mp h with h2m | h2m
              · exact Or.inl h2m
              · rw [List.mem_singleton] at h2m
                subst h2m
                exact Or.inr fun hcon => nomatch hcon
            · rw [List.mem_singleton] at h
              subst h
              exact Or.inr fun hcon => nomatch hcon
          | ok _ =>
            unfold playAudioResponse
            cases hp : o.playR with
            | error =>
              intro _
              refine ⟨rfl, rfl, fun m hm => ?_⟩
              rcases List.mem_append.mp hm with h | h
              · rcases List.mem_append.mp h with h2m | h2m
                · exact Or.inl h2m
                · rw [List.mem_singleton] at h2m
                  subst h2m
                  exact Or.inr fun hcon => nomatch hcon
              · rw [List.mem_singleton] at h
                subst h
                exact Or.inr fun hcon => nomatch hcon
            | ok _ =>
              intro hfail
              simp at hfail
        · rw [if_neg h2]
          intro hfail
          simp at hfail

/-- Witness for the amended C4: a concrete failing synthesis call. -/
theorem provider_failure_resets_to_idle_witness :
    ((processConversationTurn
        (VoiceState.mk VStatus.processing true [] [] false true false 0 0)
        (TurnOracles.mk true (CallResult.ok "q".toList) (CallResult.ok "hi".toList)
          CallResult.error (CallResult.ok ())) 5).2.failed = true) ∧
    ((processConversationTurn
        (VoiceState.mk VStatus.processing true [] [] false true false 0 0)
        (TurnOracles.mk true (CallResult.ok "q".toList) (CallResult.ok "hi".toList)
          CallResult.error (CallResult.ok ())) 5).1.status = VStatus.idle ∧
      (processConversationTurn
        (VoiceState.mk VStatus.processing true [] [] false true false 0 0)
        (TurnOracles.mk true (CallResult.ok "q".toList) (CallResult.ok "hi".toList)
          CallResult.error (CallResult.ok ())) 5).1.lock = false ∧
      ∀ m ∈ (processConversationTurn
        (VoiceState.mk VStatus.processing true [] [] false true false 0 0)
        (TurnOracles.mk true (CallResult.ok "q".toList) (CallResult.ok "hi".toList)
          CallResult.error (CallResult.ok ())) 5).1.messages,
        m ∈ (VoiceState.mk VStatus.processing true [] [] false true false 0 0).messages ∨
          m.role ≠ VRole.system) :=
  ⟨by decide,
   provider_failure_resets_to_idle
     (VoiceState.mk VStatus.processing true [] [] false true false 0 0)
     (TurnOracles.mk true (CallResult.ok "q".toList) (CallResult.ok "hi".toList)
       CallResult.error (CallResult.ok ())) 5 (by decide)⟩

/- ===================================================================
   Claim C8: stopRecording null result and idempotent release.
   The code checks `mediaRecorderRef` for null, not whether a recording is
   active; after one full start/stop cycle the ref still holds the (now
   inactive) recorder, so a repeated call neither resolves `null` nor fires
   `onstop` again — its promise never settles.
   =================================================================== -/

/-- Counterexample to C8 as stated: after a successful `startRecording`
followed by `stopRecording`, no recording is active (`isRecording = false`),
yet a further `stopRecording()` does not return `null` — `onstop` never
fires on the inactive recorder, so the promise never settles at all. -/
theorem stopRecording_null_counterexample :
    (stopRecording (stopRecording (startRecording recInit true)).1).2 ≠
      StopOutcome.nullClip ∧
    (stopRecording (startRecording recInit true)).1.isRecording = false ∧
    (stopRecording (stopRecording (startRecording recInit true)).1).2 =
      StopOutcome.neverResolves := by
  decide

/-- Claim C8 (amended): `stopRecording()` resolves `null` when no recorder
was ever created (the ref is still `null`); for every successful
`startRecording`, a subsequent `stopRecording` produces the encoded clip
and stops every track of the acquired stream exactly once; and a repeated
stop call releases nothing further and does not fail — the recorder ref is
however not cleared, so the repeated call's promise never settles instead
of resolving `null`. -/
theorem stopRecording_release :
    (∀ s : RecorderState, s.recorder = none →
      stopRecording s = (s, StopOutcome.nullClip))
    ∧ (∀ s : RecorderState,
      (stopRecording (startRecording s true)).2 = StopOutcome.clip ∧
      (stopRecording (startRecording s true)).1.trackStopCount = 1)
    ∧ (∀ s : RecorderState,
      stopRecording ((stopRecording (startRecording s true)).1) =
        ((stopRecording (startRecording s true)).1, StopOutcome.neverResolves)) := by
  refine ⟨?_, ?_, ?_⟩
  · intro s h
    unfold stopRecording
    rw [h]
  · intro s
    exact ⟨rfl, rfl⟩
  · intro s
    rfl

/-- Witness for C8: the initial state, whose recorder ref is `null`. -/
theorem stopRecording_release_witness :
    (recInit.recorder = none ∧
      stopRecording recInit = (recInit, StopOutcome.nullClip)) ∧
    ((stopRecording (startRecording recInit true)).2 = StopOutcome.clip ∧
      (stopRecording (startRecording recInit true)).1.trackStopCount = 1) ∧
    stopRecording ((stopRecording (startRecording recInit true)).1) =
      ((stopRecording (startRecording recInit true)).1, StopOutcome.neverResolves) :=
  ⟨⟨rfl, stopRecording_release.1 recInit rfl⟩,
   stopRecording_release.2.1 recInit,
   stopRecording_release.2.2 recInit⟩

/- ===================================================================
   Claim C9: base64 transport round trip.
   =================================================================== -/

theorem b64val_b64char : ∀ n < 64, b64val (b64char n) = n := by
  decide

theorem b64char_ne_pad : ∀ n : ℕ, b64char n ≠ '=' := by
  intro n
  by_cases h : n < 64
  · revert n
    decide
  · unfold b64char
    rw [List.getD_eq_default _ _ (by simpa [b64alphabet] using not_lt.mp h)]
    decide

set_option maxRecDepth 4096 in
theorem charCode_roundtrip : ∀ b < 256, (Char.ofNat b).toNat = b := by
  decide

theorem byteMaps_id (l : List ℕ) (h : ∀ b ∈ l, b < 256) :
    (l.map Char.ofNat).map Char.toNat = l := by
  rw [List.map_map]
  have : ∀ b ∈ l, (Char.toNat ∘ Char.ofNat) b = id b :=
    fun b hb => charCode_roundtrip b (h b hb)
  rw [List.map_congr_left this, List.map_id]

theorem atobL_btoaL : ∀ l : List ℕ, (∀ b ∈ l, b < 256) → atobL (btoaL l) = l := by
  intro l
  induction l using btoaL.induct with
  | case1 => intro _; rfl
  | case2 a =>
    intro h
    have ha : a < 256 := h a (List.mem_singleton_self a)
    show atobL [b64char (a / 4), b64char (a % 4 * 16), '=', '='] = [a]
    unfold atobL
    rw [if_pos rfl, b64val_b64char _ (by omega), b64val_b64char _ (by omega)]
    congr 1
    omega
  | case3 a b =>
    intro h
    have ha : a < 256 := h a (by simp)
    have hb : b < 256 := h b (by simp)
    show atobL [b64char (a / 4), b64char (a % 4 * 16 + b / 16),
      b64char (b % 16 * 4), '='] = [a, b]
    unfold atobL
    rw [if_neg (b64char_ne_pad _), if_pos rfl,
      b64val_b64char _ (by omega), b64val_b64char _ (by omega),
      b64val_b64char _ (by omega)]
    congr 1
    · omega
    · congr 1
      omega
  | case4 a b c rest ih =>
    intro h
    have ha : a < 256 := h a (by simp)
    have hb : b < 256 := h b (by simp)
    have hc : c < 256 := h c (by simp)
    show atobL (b64char (a / 4) :: b64char (a % 4 * 16 + b / 16) ::
      b64char (b % 16 * 4 + c / 64) :: b64char (c % 64) :: btoaL rest) =
      a :: b :: c :: rest
    unfold atobL
    rw [if_neg (b64char_ne_pad _), if_neg (b64char_ne_pad _),
      b64val_b64char _ (by omega), b64val_b64char _ (by omega),
      b64val_b64char _ (by omega), b64val_b64char _ (by omega),
      ih (fun x hx => h x (by simp [hx]))]
    congr 1
    · omega
    · congr 1
      · omega
      · congr 1
        omega

/-- Claim C9: for every byte array, `arrayBufferToBase64` followed by
`b64ToUint8Array` reproduces exactly the original byte sequence — the
transport text encoding of the live duplex session is a lossless round
trip. -/
theorem base64_roundtrip :
    ∀ bytes : List ℕ, (∀ b ∈ bytes, b < 256) →
      b64ToUint8Array (arrayBufferToBase64 bytes) = bytes := by
  intro bytes h
  unfold b64ToUint8Array arrayBufferToBase64
  rw [byteMaps_id bytes h, atobL_btoaL bytes h, byteMaps_id bytes h]

/-- Witness for C9 on the concrete byte array `[0, 255, 7, 128]`. -/
theorem base64_roundtrip_witness :
    (∀ b ∈ [0, 255, 7, 128], b < 256) ∧
      b64ToUint8Array (arrayBufferToBase64 [0, 255, 7, 128]) = [0, 255, 7, 128] :=
  ⟨by decide, base64_roundtrip [0, 255, 7, 128] (by decide)⟩

/- ===================================================================
   Claim C10: the completion services mutate neither the caller's message
   array nor its message objects nor the shared MODEL_CONFIGS.
   =================================================================== -/

theorem prep_frame_key :
    ∀ (h : JSHeap) (arrId : ℕ) (modelId : AIModelId) (isReasoning : Bool),
      WFHeap h arrId →
      (getChatCompletionPrep h arrId modelId isReasoning).1.arrs arrId =
        h.arrs arrId ∧
      (∀ oid ∈ h.arrs arrId,
        (getChatCompletionPrep h arrId modelId isReasoning).1.objs oid =
          h.objs oid) ∧
      (getChatCompletionPrep h arrId modelId isReasoning).1.cfgs = h.cfgs := by
  intro h arrId modelId isReasoning hwf
  obtain ⟨hlt, hids⟩ := hwf
  unfold getChatCompletionPrep
  dsimp only
  split_ifs with hq
  · cases hfi : List.findIdx?
      (fun oid => decide ((h.objs oid).role = VRole.system)) (h.arrs arrId) with
    | some i =>
      dsimp only
      refine ⟨?_, ?_, rfl⟩
      · simp only [upd]
        rw [if_neg (Nat.ne_of_lt hlt), if_neg (Nat.ne_of_lt hlt)]
      · intro oid hoid
        have hb : oid < h.next := hids oid hoid
        simp only [upd]
        rw [if_neg (by omega)]
    | none =>
      dsimp only
      refine ⟨?_, ?_, rfl⟩
      · simp only [upd]
        rw [if_neg (Nat.ne_of_lt hlt), if_neg (Nat.ne_of_lt hlt)]
      · intro oid hoid
        have hb : oid < h.next := hids oid hoid
        simp only [upd]
        rw [if_neg (by omega)]
  · refine ⟨?_, fun oid _ => rfl, rfl⟩
    simp only [upd]
    rw [if_neg (Nat.ne_of_lt hlt)]

/-- Claim C10: `getChatCompletion` and `streamChatCompletion` never mutate
their inputs or the shared configuration: after the request preparation of
either function, the caller's message array, every message object it holds,
and the shared `MODEL_CONFIGS` binding are unchanged — the reasoning-mode
instruction is applied only to a freshly allocated object inside a freshly
allocated copy of the array. -/
theorem completion_services_no_mutation :
    ∀ (h : JSHeap) (arrId : ℕ) (modelId : AIModelId) (isReasoning : Bool),
      WFHeap h arrId →
      ((getChatCompletionPrep h arrId modelId isReasoning).1.arrs arrId =
          h.arrs arrId ∧
        (∀ oid ∈ h.arrs arrId,
          (getChatCompletionPrep h arrId modelId isReasoning).1.objs oid =
            h.objs oid) ∧
        (getChatCompletionPrep h arrId modelId isReasoning).1.cfgs = h.cfgs)
      ∧ ((streamChatCompletionPrep h arrId modelId isReasoning).1.arrs arrId =
          h.arrs arrId ∧
        (∀ oid ∈ h.arrs arrId,
          (streamChatCompletionPrep h arrId modelId isReasoning).1.objs oid =
            h.objs oid) ∧
        (streamChatCompletionPrep h arrId modelId isReasoning).1.cfgs = h.cfgs) := by
  intro h arrId modelId isReasoning hwf
  constructor
  · exact prep_frame_key h arrId modelId isReasoning hwf
  · rw [show streamChatCompletionPrep = getChatCompletionPrep from rfl]
    exact prep_frame_key h arrId modelId isReasoning hwf

/-- Witness for C10: a one-element heap holding a single user message, with
the Qwen model in reasoning mode (the branch that rewrites the copy). -/
theorem completion_services_no_mutation_witness :
    WFHeap (JSHeap.mk (fun _ => [0]) (fun _ => GMessage.mk VRole.user [])
      MODEL_CONFIGS 1) 0 ∧
    ((getChatCompletionPrep (JSHeap.mk (fun _ => [0])
        (fun _ => GMessage.mk VRole.user []) MODEL_CONFIGS 1) 0
        AIModelId.qwen3 true).1.arrs 0 =
      (JSHeap.mk (fun _ => [0]) (fun _ => GMessage.mk VRole.user [])
        MODEL_CONFIGS 1).arrs 0 ∧
      (∀ oid ∈ (JSHeap.mk (fun _ => [0]) (fun _ => GMessage.mk VRole.user [])
          MODEL_CONFIGS 1).arrs 0,
        (getChatCompletionPrep (JSHeap.mk (fun _ => [0])
          (fun _ => GMessage.mk VRole.user []) MODEL_CONFIGS 1) 0
          AIModelId.qwen3 true).1.objs oid =
        (JSHeap.mk (fun _ => [0]) (fun _ => GMessage.mk VRole.user [])
          MODEL_CONFIGS 1).objs oid) ∧
      (getChatCompletionPrep (JSHeap.mk (fun _ => [0])
        (fun _ => GMessage.mk VRole.user []) MODEL_CONFIGS 1) 0
        AIModelId.qwen3 true).1.cfgs =
      (JSHeap.mk (fun _ => [0]) (fun _ => GMessage.mk VRole.user [])
        MODEL_CONFIGS 1).cfgs) :=
  ⟨⟨by decide, by decide⟩,
   (completion_services_no_mutation
     (JSHeap.mk (fun _ => [0]) (fun _ => GMessage.mk VRole.user [])
       MODEL_CONFIGS 1) 0 AIModelId.qwen3 true ⟨by decide, by decide⟩).1⟩
